import Mathlib

/-!
Verification development for the generation-orchestration layer of the
Lexicon-Nexus browser client (src/services/geminiService.ts, together with
its cache service and settings service collaborators).

The TypeScript source is shallowly embedded: asynchronous functions become
pure Lean functions that additionally return an explicit trace of
observable events (operation invocations, onRetry notifications, backoff
sleeps, network requests) and the updated cache state.  External
collaborators (the generative backend, JSON.parse) are passed in as
explicit function parameters.  JavaScript strings are modelled by Lean
strings over their character lists; the JS string operations used by the
source (includes, trim, toLowerCase, the one fence regex) are re-defined
here character-by-character for the ASCII fragment the source exercises.
-/

/-! ## JavaScript string primitives used by the source -/

/-- JS `String.prototype.includes` on character lists: `containsSub l p`
is true iff `p` occurs contiguously inside `l`. -/
def containsSub (l p : List Char) : Bool :=
  match l with
  | [] => p.isEmpty
  | _ :: t => p.isPrefixOf l || containsSub t p

/-- JS `haystack.includes(needle)`. -/
def jsIncludes (s pat : String) : Bool :=
  containsSub s.data pat.data

/-- Whitespace test backing the `\s` class of the fence regex and JS
`trim` (ASCII fragment; the Unicode spaces JS also accepts never occur in
the strings this development reasons about). -/
def isWsChar (c : Char) : Bool :=
  c = ' ' || c = '\t' || c = '\n' || c = '\r' || c = '\x0B' || c = '\x0C'

/-- JS `String.prototype.trim` on character lists. -/
def jsTrimL (l : List Char) : List Char :=
  ((l.dropWhile isWsChar).reverse.dropWhile isWsChar).reverse

/-- JS `s.trim()` on strings. -/
def jsTrimStr (s : String) : String :=
  String.mk (jsTrimL s.data)

/-- JS `String.prototype.toLowerCase` (ASCII fragment). -/
def jsToLower (s : String) : String :=
  String.mk (s.data.map Char.toLower)

/-! ## Error values

A thrown JavaScript value is either an `Error` instance carrying a
message, or some other value; `geminiService` only ever inspects
`error.message` after an `instanceof Error` test, substituting a fixed
fallback text otherwise. -/

/-- A raw thrown JavaScript value, as far as the source inspects it. -/
inductive JSError where
  | errObj (message : String)
  | other
deriving DecidableEq, Repr

/-- The `message` the source extracts from a caught value
(`error instanceof Error ? error.message : 'An unknown error occurred.'`,
with the initial `let message` default). -/
def errMessage : JSError → String
  | .errObj m => m
  | .other => "An unknown error occurred."

/-- A normalized `Error` as produced by `handleGeminiError` (only its
message is ever observed). -/
structure GError where
  message : String
deriving DecidableEq, Repr

/-- The three case-sensitive substring markers `handleGeminiError` tests
for (`RESOURCE_EXHAUSTED`, `"code":429`, `rate limit`). -/
def rateLimitMarked (m : String) : Bool :=
  jsIncludes m "RESOURCE_EXHAUSTED" || jsIncludes m "\"code\":429" || jsIncludes m "rate limit"

/-- The fixed user-facing rate-limit message. -/
def rateLimitUserMessage : String :=
  "API rate limit exceeded. Please wait a moment and try again."

/-- `handleGeminiError` from geminiService.ts: classify a caught value,
normalizing rate-limited failures to a fixed message and wrapping all
other failures with the caller-supplied context. -/
def handleGeminiError (error : JSError) (context : String) : GError :=
  let message := errMessage error
  if rateLimitMarked message then
    ⟨rateLimitUserMessage⟩
  else
    ⟨"Could not " ++ context ++ ". " ++ message⟩

/-- Message of the error thrown by `getAiInstance` when no API key is
configured. -/
def apiKeyNotConfiguredMessage : String :=
  "API Key is not configured. Please add it in the settings panel."

/-! ## The retry wrapper -/

/-- `MAX_RETRIES` from geminiService.ts. -/
def MAX_RETRIES : Nat := 3

/-- `INITIAL_BACKOFF_MS` from geminiService.ts. -/
def INITIAL_BACKOFF_MS : Nat := 2000

/-- Observable events of one orchestration call: `invoke n` marks the
n-th (0-based) invocation of the wrapped operation, `retryNote a d` an
`onRetry(a, d)` notification, `sleepEv d` a backoff sleep of `d` ms, and
`netCall` a network request issued to the backend. -/
inductive Ev where
  | invoke (attempt : Nat)
  | retryNote (attempt : Nat) (delayMs : Nat)
  | sleepEv (delayMs : Nat)
  | netCall
deriving DecidableEq, Repr

/-- Loop body of `geminiRequestWithRetry`.  The wrapped operation is a
function of the 0-based attempt index and a state (the cache); it returns
its own trace, an `Except` outcome, and the updated state.  `rem` is the
number of loop iterations left (`MAX_RETRIES - attempt`); the final
fallback `throw lastError!` after the loop is the `rem = 0` case and is
unreachable from the entry point. -/
def retryGo {α σ : Type} (op : Nat → σ → List Ev × Except GError α × σ)
    (hasOnRetry : Bool) : Nat → Nat → Option GError → σ → List Ev × Except GError α × σ
  | _attempt, 0, lastError, s => ([], .error (lastError.getD ⟨"no error recorded"⟩), s)
  | attempt, rem + 1, _lastError, s =>
    match op attempt s with
    | (evs, .ok v, s2) => (Ev.invoke attempt :: evs, .ok v, s2)
    | (evs, .error e, s2) =>
      if jsIncludes e.message "API rate limit exceeded" then
        if attempt < MAX_RETRIES - 1 then
          let delay := INITIAL_BACKOFF_MS * 2 ^ attempt
          let tail := retryGo op hasOnRetry (attempt + 1) rem (some e) s2
          (Ev.invoke attempt :: evs
              ++ (if hasOnRetry then [Ev.retryNote (attempt + 1) delay] else [])
              ++ Ev.sleepEv delay :: tail.1,
            tail.2.1, tail.2.2)
        else
          (Ev.invoke attempt :: evs, .error e, s2)
      else
        (Ev.invoke attempt :: evs, .error e, s2)

/-- `geminiRequestWithRetry` from geminiService.ts, as a trace-producing
state transformer. -/
def geminiRequestWithRetry {α σ : Type} (op : Nat → σ → List Ev × Except GError α × σ)
    (hasOnRetry : Bool) (s : σ) : List Ev × Except GError α × σ :=
  retryGo op hasOnRetry 0 MAX_RETRIES none s

/-- Lift a stateless, trace-free operation (attempt index to outcome)
into the shape `geminiRequestWithRetry` consumes. -/
def liftOp {α : Type} (f : Nat → Except GError α) :
    Nat → Unit → List Ev × Except GError α × Unit :=
  fun n _ => ([], f n, ())

/-! ## Substring lemmas -/

theorem containsSub_infix_iff (p : List Char) :
    ∀ l : List Char, containsSub l p = true ↔ p <:+: l := by
  intro l
  induction l with
  | nil =>
    simp only [containsSub, List.isEmpty_iff]
    constructor
    · intro h; rw [h]
    · intro h; exact List.eq_nil_of_infix_nil h
  | cons c t ih =>
    simp only [containsSub, Bool.or_eq_true]
    rw [List.infix_cons_iff, ih, List.isPrefixOf_iff_prefix]

theorem jsIncludes_trans {s p q : String}
    (hp : jsIncludes s p = true) (hq : containsSub p.data q.data = true) :
    jsIncludes s q = true := by
  rw [jsIncludes, containsSub_infix_iff] at hp ⊢
  rw [containsSub_infix_iff] at hq
  exact hq.trans hp

/-- A message in which none of the three rate-limit markers occurs cannot
contain the normalized phrase `API rate limit exceeded` (which contains
the marker `rate limit`). -/
theorem not_marked_not_normalized {m : String}
    (h : rateLimitMarked m = false) :
    jsIncludes m "API rate limit exceeded" = false := by
  by_contra hne
  have hinc : jsIncludes m "API rate limit exceeded" = true := by
    cases hval : jsIncludes m "API rate limit exceeded" with
    | true => rfl
    | false => exact absurd hval hne
  have hsub : containsSub "API rate limit exceeded".data "rate limit".data = true := rfl
  have : jsIncludes m "rate limit" = true := jsIncludes_trans hinc hsub
  rw [rateLimitMarked] at h
  simp only [Bool.or_eq_false_iff] at h
  rw [this] at h
  exact Bool.noConfusion h.2

/-! ## Head-character helper for disequalities between message families -/

/-- First character of a string, if any. -/
def strHead? (s : String) : Option Char := s.data.head?

theorem could_not_head (ctx m : String) :
    strHead? ("Could not " ++ ctx ++ ". " ++ m) = some 'C' := rfl

theorem could_not_ne (ctx m : String) :
    ("Could not " ++ ctx ++ ". " ++ m) ≠ rateLimitUserMessage := by
  intro h
  have h1 := congrArg strHead? h
  rw [could_not_head] at h1
  have h2 : strHead? rateLimitUserMessage = some 'A' := rfl
  rw [h2] at h1
  exact absurd h1 (by decide)

theorem handleGeminiError_marked {e : JSError} {ctx : String}
    (h : rateLimitMarked (errMessage e) = true) :
    handleGeminiError e ctx = ⟨rateLimitUserMessage⟩ := by
  simp [handleGeminiError, h]

theorem handleGeminiError_unmarked {e : JSError} {ctx : String}
    (h : rateLimitMarked (errMessage e) = false) :
    handleGeminiError e ctx = ⟨"Could not " ++ ctx ++ ". " ++ errMessage e⟩ := by
  simp [handleGeminiError, h]

/-! ## Claims C1, C2, C3: retry wrapper and error classifier -/

/-- C1 (counterexample): an operation that on every invocation throws an
error whose message is rate-limit-shaped by the classifier's own
detection rule (here the marker `RESOURCE_EXHAUSTED`), but which does not
contain the normalized phrase `API rate limit exceeded`, is invoked
exactly once by `geminiRequestWithRetry` — not 3 times — with no
`onRetry` notification and no sleep, and the error is rethrown
immediately.  This refutes the claim that every always-rate-limit-shaped
operation is attempted 3 times. -/
theorem retry_wrapper_marker_error_single_attempt_cex :
    rateLimitMarked "RESOURCE_EXHAUSTED" = true ∧
    geminiRequestWithRetry (liftOp (α := Unit) (fun _ => .error ⟨"RESOURCE_EXHAUSTED"⟩)) true () =
      ([Ev.invoke 0], .error ⟨"RESOURCE_EXHAUSTED"⟩, ()) :=
  ⟨rfl, rfl⟩

/-- C1 (amended): for every operation that on every invocation throws an
error whose message contains the normalized phrase `API rate limit
exceeded` (the message the classifier produces for rate-limited
failures), `geminiRequestWithRetry` invokes the operation exactly 3
times, invokes the provided `onRetry` observer exactly twice with
1-indexed attempt numbers and delays exactly 2000 ms then 4000 ms, each
`onRetry` notification happening immediately before the corresponding
backoff sleep, and finally rejects with the last error (not a generic
max-retries error). -/
theorem retry_wrapper_normalized_rate_limit_exhaustion {α : Type} (e : Nat → GError)
    (hmark : ∀ k, jsIncludes (e k).message "API rate limit exceeded" = true) :
    geminiRequestWithRetry (liftOp (α := α) (fun k => .error (e k))) true () =
      ([Ev.invoke 0, Ev.retryNote 1 2000, Ev.sleepEv 2000,
        Ev.invoke 1, Ev.retryNote 2 4000, Ev.sleepEv 4000,
        Ev.invoke 2], .error (e 2), ()) := by
  simp [geminiRequestWithRetry, retryGo, liftOp, hmark 0, hmark 1, hmark 2,
    MAX_RETRIES, INITIAL_BACKOFF_MS]

/-- C1 (witness): the amended theorem evaluated at the constant
rate-limit-normalized error. -/
theorem retry_wrapper_normalized_rate_limit_exhaustion_witness :
    geminiRequestWithRetry (liftOp (α := Unit) (fun _ => .error ⟨rateLimitUserMessage⟩)) true () =
      ([Ev.invoke 0, Ev.retryNote 1 2000, Ev.sleepEv 2000,
        Ev.invoke 1, Ev.retryNote 2 4000, Ev.sleepEv 4000,
        Ev.invoke 2], .error ⟨rateLimitUserMessage⟩, ()) :=
  retry_wrapper_normalized_rate_limit_exhaustion (fun _ => ⟨rateLimitUserMessage⟩) (fun _ => rfl)

/-- C2: for every operation whose first invocation throws an error that
is not classified as rate-limited (none of the three markers occurs in
its message), `geminiRequestWithRetry` invokes the operation exactly
once, never notifies `onRetry`, never sleeps, and rethrows that very
error; no result is returned. -/
theorem retry_wrapper_fatal_error_single_attempt {α : Type}
    (f : Nat → Except GError α) (e : GError) (hasOnRetry : Bool)
    (h0 : f 0 = .error e) (hm : rateLimitMarked e.message = false) :
    geminiRequestWithRetry (liftOp f) hasOnRetry () = ([Ev.invoke 0], .error e, ()) := by
  have hni := not_marked_not_normalized hm
  simp [geminiRequestWithRetry, retryGo, liftOp, h0, hni]

/-- C2 (witness): the theorem evaluated at a concrete fatal error. -/
theorem retry_wrapper_fatal_error_single_attempt_witness :
    geminiRequestWithRetry (liftOp (α := Unit) (fun _ => .error ⟨"boom"⟩)) true () =
      ([Ev.invoke 0], .error ⟨"boom"⟩, ()) :=
  retry_wrapper_fatal_error_single_attempt (fun _ => .error ⟨"boom"⟩) ⟨"boom"⟩ true rfl rfl

/-- C3: `handleGeminiError` returns the fixed rate-limit message iff the
extracted message contains one of the three case-sensitive markers
(`RESOURCE_EXHAUSTED`, `"code":429`, `rate limit`); for any other error
it returns an error whose message is exactly
`Could not {context}. {message}` (where the extracted message of a
non-`Error` value is the fixed fallback `An unknown error occurred.`).
Being a total Lean function, the embedding also shows the handler itself
never throws. -/
theorem handleGeminiError_classification (e : JSError) (ctx : String) :
    ((handleGeminiError e ctx).message = rateLimitUserMessage ↔
        rateLimitMarked (errMessage e) = true)
    ∧ (rateLimitMarked (errMessage e) = false →
        (handleGeminiError e ctx).message = "Could not " ++ ctx ++ ". " ++ errMessage e) := by
  cases hv : rateLimitMarked (errMessage e) with
  | true => simp [handleGeminiError_marked hv, hv]
  | false => simp [handleGeminiError_unmarked hv, hv, could_not_ne ctx (errMessage e)]

/-- C3 (witness): the classifier evaluated at a concrete fatal error and
at a concrete rate-limited error. -/
theorem handleGeminiError_classification_witness :
    (handleGeminiError (.errObj "boom") "do the thing").message = "Could not do the thing. boom"
    ∧ (handleGeminiError (.errObj "saw RESOURCE_EXHAUSTED today") "x").message = rateLimitUserMessage :=
  ⟨(handleGeminiError_classification (.errObj "boom") "do the thing").2 rfl,
   (handleGeminiError_classification (.errObj "saw RESOURCE_EXHAUSTED today") "x").1.mpr rfl⟩

/-! ## Fence stripping

The source applies the regex `/^```(?:json)?\s*\n?(.*?)\n?\s*```$/s` to the
trimmed response text and, when the captured group is non-empty, replaces
the text by the trimmed group.  The regex is embedded by its matching
semantics: the literal backticks, the greedy optional `json` tag and the
greedy whitespace run are consumed in order (the engine's backtracking on
these pieces never changes overall success, because the lazy dot-all
group can absorb anything), and the lazy group takes the shortest middle
whose remainder consists of optional whitespace followed by the three
closing backticks at the very end of the string. -/

/-- The backtick character, extracted from a string literal. -/
def backtickChar : Char := "`".get 0

/-- Does a remainder match the regex tail `\n?\s*` followed by the three
closing backticks at end of input? -/
def tailOk (t : List Char) : Bool :=
  t.dropWhile isWsChar == "```".data

/-- Shortest split of the remaining input into captured middle and a
matching tail (the lazy `(.*?)` group). -/
def findMid : List Char → Option (List Char)
  | [] => if tailOk [] then some [] else none
  | c :: rest =>
    if tailOk (c :: rest) then some []
    else (findMid rest).map (fun m => c :: m)

/-- Full-match capture of the fence regex on the (already trimmed)
response text: `some mid` is the captured group of the first match,
`none` means the regex does not match. -/
def fenceCapture (s : List Char) : Option (List Char) :=
  if "```".data.isPrefixOf s then
    let r1 := s.drop 3
    let r2 := if "json".data.isPrefixOf r1 then r1.drop 4 else r1
    findMid (r2.dropWhile isWsChar)
  else none

/-- The fence-stripping block of `generateAncillaryData` and
`generateDeepDive`: trim the raw text, and when the regex matches with a
truthy (non-empty) captured group, replace the text by the trimmed
group. -/
def stripFenceL (l : List Char) : List Char :=
  let jsonStr := jsTrimL l
  match fenceCapture jsonStr with
  | some mid => if mid.isEmpty then jsonStr else jsTrimL mid
  | none => jsonStr

/-- String-level wrapper for the fence-stripping block. -/
def stripFenceStr (text : String) : String :=
  String.mk (stripFenceL text.data)

/-! ## Lemmas about trimming and the fence capture -/

theorem dropWhile_eq_self_of_head {p : Char → Bool} :
    ∀ (l : List Char), (∀ c, l.head? = some c → p c = false) → l.dropWhile p = l
  | [], _ => rfl
  | c :: t, h => by
    have hc : p c = false := h c rfl
    simp [List.dropWhile_cons, hc]

theorem jsTrimL_eq_self (l : List Char)
    (h1 : ∀ c, l.head? = some c → isWsChar c = false)
    (h2 : ∀ c, l.getLast? = some c → isWsChar c = false) :
    jsTrimL l = l := by
  have hr : ∀ c, l.reverse.head? = some c → isWsChar c = false := by
    intro c hc
    rw [List.head?_reverse] at hc
    exact h2 c hc
  rw [jsTrimL, dropWhile_eq_self_of_head l h1, dropWhile_eq_self_of_head l.reverse hr,
    List.reverse_reverse]

theorem dropWhile_append_of_ne_nil {p : Char → Bool} :
    ∀ (l₁ l₂ : List Char), l₁.dropWhile p ≠ [] →
      (l₁ ++ l₂).dropWhile p = l₁.dropWhile p ++ l₂
  | [], _, h => absurd rfl h
  | c :: t, l₂, h => by
    by_cases hc : p c
    · rw [List.dropWhile_cons_of_pos hc] at h
      simp only [List.cons_append, List.dropWhile_cons_of_pos hc]
      exact dropWhile_append_of_ne_nil t l₂ h
    · simp only [List.cons_append, List.dropWhile_cons_of_neg hc]

theorem tailOk_false (s : List Char) (hs : s ≠ [])
    (hlast : ∀ c, s.getLast? = some c → isWsChar c = false) :
    tailOk (s ++ "\n```".data) = false := by
  have hex : ∃ c, s.getLast? = some c := by
    cases s with
    | nil => exact absurd rfl hs
    | cons c t => exact ⟨(c :: t).getLast (by simp), List.getLast?_eq_getLast _ _⟩
  obtain ⟨c, hc⟩ := hex
  have hmem : c ∈ s := List.mem_of_mem_getLast? hc
  have hne : s.dropWhile isWsChar ≠ [] := by
    intro hnil
    rw [List.dropWhile_eq_nil_iff] at hnil
    have := hnil c hmem
    rw [hlast c hc] at this
    exact Bool.noConfusion this
  rw [tailOk, dropWhile_append_of_ne_nil s _ hne, beq_eq_false_iff_ne]
  intro heq
  have hlen := congrArg List.length heq
  rw [List.length_append] at hlen
  have h4 : ("\n```".data : List Char).length = 4 := rfl
  have h3 : ("```".data : List Char).length = 3 := rfl
  rw [h4, h3] at hlen
  have hpos : 0 < (s.dropWhile isWsChar).length := List.length_pos.mpr hne
  omega

theorem findMid_inner (s : List Char)
    (h : ∀ c, s.getLast? = some c → isWsChar c = false) :
    findMid (s ++ "\n```".data) = some s := by
  induction s with
  | nil => rfl
  | cons c t ih =>
    have hf : tailOk (c :: (t ++ "\n```".data)) = false := by
      have := tailOk_false (c :: t) (by simp) h
      rwa [List.cons_append] at this
    have ht : ∀ c2, t.getLast? = some c2 → isWsChar c2 = false := by
      intro c2 hc2
      apply h
      cases t with
      | nil => simp at hc2
      | cons d u => rw [List.getLast?_cons_cons]; exact hc2
    rw [List.cons_append, findMid, hf]
    simp [ih ht]

theorem stripFenceL_of_capture {l mid : List Char}
    (h : fenceCapture (jsTrimL l) = some mid) (hne : mid.isEmpty = false) :
    stripFenceL l = jsTrimL mid := by
  simp only [stripFenceL]
  rw [h]
  simp [hne]

/-- Stripping the fence from a response wrapped as three backticks +
`json` + newline + inner text + newline + three backticks recovers the
inner text exactly, provided the inner text is non-empty and neither
starts nor ends with whitespace (as any trimmed JSON payload does). -/
theorem stripFence_roundtrip (inner : List Char)
    (hne : inner ≠ [])
    (hhead : ∀ c, inner.head? = some c → isWsChar c = false)
    (hlast : ∀ c, inner.getLast? = some c → isWsChar c = false) :
    stripFenceL ("```json\n".data ++ inner ++ "\n```".data) = inner := by
  obtain ⟨c, t, rfl⟩ : ∃ c t, inner = c :: t := by
    cases inner with
    | nil => exact absurd rfl hne
    | cons c t => exact ⟨c, t, rfl⟩
  rw [List.append_assoc]
  have hLhead : ("```json\n".data ++ ((c :: t) ++ "\n```".data)).head? = some backtickChar := rfl
  have hLlast : ("```json\n".data ++ ((c :: t) ++ "\n```".data)).getLast? = some backtickChar := by
    rw [List.getLast?_append_of_ne_nil _
        (show (c :: t) ++ "\n```".data ≠ [] by simp),
      List.getLast?_append_of_ne_nil _
        (show ("\n```".data : List Char) ≠ [] by decide)]
    rfl
  have hbt : isWsChar backtickChar = false := by decide
  have htrim : jsTrimL ("```json\n".data ++ ((c :: t) ++ "\n```".data)) =
      "```json\n".data ++ ((c :: t) ++ "\n```".data) := by
    apply jsTrimL_eq_self
    · intro c0 h0
      rw [hLhead] at h0
      injection h0 with h0
      rw [← h0]
      exact hbt
    · intro c0 h0
      rw [hLlast] at h0
      injection h0 with h0
      rw [← h0]
      exact hbt
  have h1 : fenceCapture ("```json\n".data ++ ((c :: t) ++ "\n```".data)) =
      findMid (((c :: t) ++ "\n```".data).dropWhile isWsChar) := rfl
  have h2 : ((c :: t) ++ "\n```".data).dropWhile isWsChar = (c :: t) ++ "\n```".data := by
    apply dropWhile_eq_self_of_head
    intro c0 h0
    rw [List.cons_append, List.head?_cons] at h0
    injection h0 with h0
    rw [← h0]
    exact hhead c rfl
  have hcap : fenceCapture (jsTrimL ("```json\n".data ++ ((c :: t) ++ "\n```".data))) =
      some (c :: t) := by
    rw [htrim, h1, h2]
    exact findMid_inner (c :: t) hlast
  rw [stripFenceL_of_capture hcap rfl]
  exact jsTrimL_eq_self (c :: t) hhead hlast

/-! ## JSON values, cache and settings

`JSON.parse` is an external collaborator: the orchestration functions
below take it as an explicit `jsonParse` parameter producing a `JVal`
(or throwing a syntax error).  The session cache stores the parsed
values directly — `cacheService` JSON-serializes them to storage and
parses them back, an external round-trip that is the identity for
JSON-representable values; its silently-swallowed storage faults are
outside the model. -/

/-- A JavaScript JSON value. -/
inductive JVal where
  | jnull
  | jbool (b : Bool)
  | jnum (n : Int)
  | jstr (s : String)
  | jarr (xs : List JVal)
  | jobj (fields : List (String × JVal))

/-- JS property access `v[k]` on a parsed JSON value (`undefined` is
`none`). -/
def jGet (v : JVal) (k : String) : Option JVal :=
  match v with
  | .jobj fields => (fields.find? (fun p => p.1 == k)).map (fun p => p.2)
  | _ => none

/-- JS truthiness of a JSON value (the `if (cachedData)` test). -/
def jsTruthy : JVal → Bool
  | .jnull => false
  | .jbool b => b
  | .jnum n => n != 0
  | .jstr s => !s.isEmpty
  | .jarr _ => true
  | .jobj _ => true

/-- The `generateAncillaryData` hard validation:
`typeof parsed.artData?.art === 'string' && parsed.artData.art.trim().length !== 0`. -/
def artValid (parsed : JVal) : Bool :=
  match (jGet parsed "artData").bind (fun a => jGet a "art") with
  | some (.jstr s) => !(jsTrimStr s).isEmpty
  | _ => false

/-- Outcome of the validation line of `generateAncillaryData`: `none`
means the parsed value passes; otherwise the message of the error the
line throws.  On `parsed = null` the property access
`parsed.artData?.art` itself throws a TypeError (whose exact text is
JS-engine-specific and not relied upon); on any other shape failing the
check the source throws its fixed descriptive error. -/
def ancValidate (parsed : JVal) : Option String :=
  match parsed with
  | .jnull => some "TypeError: Cannot read properties of null"
  | _ => if artValid parsed then none else some "Invalid or empty ASCII art in response"

/-- The session cache: key to stored JSON value, newest entry first
(`find?` takes the newest, so prepending models overwriting). -/
abbrev Cache := List (String × JVal)

/-- `cache.get`. -/
def cacheGet (c : Cache) (key : String) : Option JVal :=
  (c.find? (fun p => p.1 == key)).map (fun p => p.2)

/-- `cache.set`. -/
def cacheSet (c : Cache) (key : String) (v : JVal) : Cache :=
  (key, v) :: c

/-- The ambient settings reads the orchestrator performs
(`settingsService.getApiKey()` and `getActiveModelId()`); the
`highQualityArt` flag only shapes the opaque request configuration and
has no observable effect in this model. -/
structure Settings where
  apiKey : Option String
  modelId : String

/-- Cache key of `generateAncillaryData`:
`ancillary_{modelId}_{topic.toLowerCase()}`. -/
def ancCacheKey (modelId topic : String) : String :=
  "ancillary_" ++ modelId ++ "_" ++ jsToLower topic

/-- Cache key of `generateDeepDive`:
`deepdive_{modelId}_{topic.toLowerCase()}`. -/
def deepDiveCacheKey (modelId topic : String) : String :=
  "deepdive_" ++ modelId ++ "_" ++ jsToLower topic

/-- The backend for non-streaming calls: the n-th network request either
returns the response text or throws. -/
abbrev Net := Nat → Except JSError String

/-- External `JSON.parse`. -/
abbrev JsonParse := String → Except JSError JVal

/-! ## The two non-streaming operations -/

/-- The `apiCall` closure of `generateAncillaryData`: check the
credential (`getAiInstance`, outside the try block, so its error is not
wrapped), issue the request, fence-strip and parse the text, run the
art validation, and on success write through to the cache; every failure
inside the try block is classified with the ancillary context. -/
def ancApiCall (st : Settings) (jsonParse : JsonParse) (net : Net) (topic : String)
    (cacheKey : String) (n : Nat) (c : Cache) : List Ev × Except GError JVal × Cache :=
  match st.apiKey with
  | none => ([], .error ⟨apiKeyNotConfiguredMessage⟩, c)
  | some _ =>
    match net n with
    | .error e =>
      ([Ev.netCall],
        .error (handleGeminiError e ("generate ancillary data for \"" ++ topic ++ "\"")), c)
    | .ok text =>
      match jsonParse (stripFenceStr text) with
      | .error e =>
        ([Ev.netCall],
          .error (handleGeminiError e ("generate ancillary data for \"" ++ topic ++ "\"")), c)
      | .ok parsed =>
        match ancValidate parsed with
        | some msg =>
          ([Ev.netCall],
            .error (handleGeminiError (.errObj msg)
              ("generate ancillary data for \"" ++ topic ++ "\"")), c)
        | none => ([Ev.netCall], .ok parsed, cacheSet c cacheKey parsed)

/-- `generateAncillaryData` from geminiService.ts: cache-first on the
ancillary key, otherwise run the `apiCall` through
`geminiRequestWithRetry`. -/
def generateAncillaryData (st : Settings) (jsonParse : JsonParse) (net : Net)
    (topic : String) (hasOnRetry : Bool) (c : Cache) : List Ev × Except GError JVal × Cache :=
  let cacheKey := ancCacheKey st.modelId topic
  match cacheGet c cacheKey with
  | some cachedData =>
    if jsTruthy cachedData then ([], .ok cachedData, c)
    else geminiRequestWithRetry (ancApiCall st jsonParse net topic cacheKey) hasOnRetry c
  | none => geminiRequestWithRetry (ancApiCall st jsonParse net topic cacheKey) hasOnRetry c

/-- The `apiCall` closure of `generateDeepDive`: like the ancillary one
but with the deep-dive context and no shape validation at all — the
parsed value is cached and returned as-is. -/
def ddApiCall (st : Settings) (jsonParse : JsonParse) (net : Net) (topic : String)
    (cacheKey : String) (n : Nat) (c : Cache) : List Ev × Except GError JVal × Cache :=
  match st.apiKey with
  | none => ([], .error ⟨apiKeyNotConfiguredMessage⟩, c)
  | some _ =>
    match net n with
    | .error e =>
      ([Ev.netCall],
        .error (handleGeminiError e ("generate deep dive for \"" ++ topic ++ "\"")), c)
    | .ok text =>
      match jsonParse (stripFenceStr text) with
      | .error e =>
        ([Ev.netCall],
          .error (handleGeminiError e ("generate deep dive for \"" ++ topic ++ "\"")), c)
      | .ok parsed => ([Ev.netCall], .ok parsed, cacheSet c cacheKey parsed)

/-- `generateDeepDive` from geminiService.ts. -/
def generateDeepDive (st : Settings) (jsonParse : JsonParse) (net : Net)
    (topic : String) (hasOnRetry : Bool) (c : Cache) : List Ev × Except GError JVal × Cache :=
  let cacheKey := deepDiveCacheKey st.modelId topic
  match cacheGet c cacheKey with
  | some cachedData =>
    if jsTruthy cachedData then ([], .ok cachedData, c)
    else geminiRequestWithRetry (ddApiCall st jsonParse net topic cacheKey) hasOnRetry c
  | none => geminiRequestWithRetry (ddApiCall st jsonParse net topic cacheKey) hasOnRetry c

/-- Network-request events in a trace. -/
def isNetCall : Ev → Bool
  | .netCall => true
  | _ => false

/-- Number of network requests recorded in a trace. -/
def netCount (tr : List Ev) : Nat :=
  (tr.filter isNetCall).length

/-! ## The streaming operation -/

/-- Behaviour of one `generateContentStream` attempt: the call either
throws immediately, or delivers a sequence of chunks (each with an
optional text, `chunk.text` may be absent or empty) followed by an
optional error raised during iteration. -/
abbrev StreamResp := Except JSError (List (Option String) × Option JSError)

/-- The chunks the generator forwards: every truthy `chunk.text`, in
arrival order. -/
def chunkTexts (cs : List (Option String)) : List String :=
  cs.filterMap (fun o =>
    match o with
    | some t => if t.isEmpty then none else some t
    | none => none)

/-- The retry sentinel chunk yielded by `streamDefinition`
(`Math.round(delay/1000)` is exact division for the powers-of-two delays
the loop produces). -/
def sentinelMsg (delayMs : Nat) : String :=
  "[SYSTEM:RETRY]Rate limit exceeded. Retrying in " ++ toString (delayMs / 1000) ++ "s..."

/-- What one attempt contributes: the texts yielded before the attempt
settles, and the error it raises (if any) — a throwing call yields
nothing. -/
def attemptView (r : StreamResp) : List String × Option JSError :=
  match r with
  | .ok (chunks, merr) => (chunkTexts chunks, merr)
  | .error e => ([], some e)

/-- The attempt loop of `streamDefinition`: yields the truthy text
chunks of each attempt; on a caught error, classifies it with the
content context and — when the normalized message carries the rate-limit
phrase and attempts remain — yields the sentinel chunk and retries,
otherwise terminates the sequence by raising the normalized error.
`rem` is `MAX_RETRIES - attempt`. -/
def streamGo (streams : Nat → StreamResp) (topicOrQuery : String) :
    Nat → Nat → List String × Option GError
  | _, 0 => ([], none)
  | attempt, rem + 1 =>
    match attemptView (streams attempt) with
    | (yields, none) => (yields, none)
    | (yields, some e) =>
      let lastError := handleGeminiError e ("generate content for \"" ++ topicOrQuery ++ "\"")
      if jsIncludes lastError.message "API rate limit exceeded" then
        if attempt < MAX_RETRIES - 1 then
          let delay := INITIAL_BACKOFF_MS * 2 ^ attempt
          let tail := streamGo streams topicOrQuery (attempt + 1) rem
          (yields ++ sentinelMsg delay :: tail.1, tail.2)
        else (yields, some lastError)
      else (yields, some lastError)

/-- `streamDefinition` from geminiService.ts, observed as the full list
of yielded chunks plus the error the generator finally raises (if any).
`getAiInstance` runs before the attempt loop, so a missing credential
raises before anything is yielded.  The request contents (plain prompt
vs. file question) are opaque and do not influence the observable
control flow modelled here. -/
def streamDefinition (st : Settings) (streams : Nat → StreamResp) (topicOrQuery : String) :
    List String × Option GError :=
  match st.apiKey with
  | none => ([], some ⟨apiKeyNotConfiguredMessage⟩)
  | some _ => streamGo streams topicOrQuery 0 MAX_RETRIES

/-! ## Helper lemmas for the orchestration proofs -/

@[simp] theorem netCount_nil : netCount [] = 0 := rfl

@[simp] theorem netCount_cons (e : Ev) (l : List Ev) :
    netCount (e :: l) = (if isNetCall e then 1 else 0) + netCount l := by
  simp only [netCount, List.filter_cons]
  by_cases h : isNetCall e
  · simp [h, Nat.add_comm]
  · simp [h]

@[simp] theorem netCount_append (l₁ l₂ : List Ev) :
    netCount (l₁ ++ l₂) = netCount l₁ + netCount l₂ := by
  simp [netCount, List.filter_append]

theorem cacheGet_set_self (c : Cache) (key : String) (v : JVal) :
    cacheGet (cacheSet c key v) key = some v := by
  rw [cacheSet, cacheGet, List.find?_cons_of_pos _ (by simp)]
  rfl

theorem ancValidate_eq_none_of_artValid {v : JVal} (h : artValid v = true) :
    ancValidate v = none := by
  cases v with
  | jnull => exact absurd h (by decide)
  | jbool b => simp [ancValidate, h]
  | jnum n => simp [ancValidate, h]
  | jstr s => simp [ancValidate, h]
  | jarr xs => simp [ancValidate, h]
  | jobj fs => simp [ancValidate, h]

theorem ancValidate_eq_some_of_invalid {v : JVal} (h : artValid v = false)
    (hn : v ≠ JVal.jnull) :
    ancValidate v = some "Invalid or empty ASCII art in response" := by
  cases v with
  | jnull => exact absurd rfl hn
  | jbool b => simp [ancValidate, h]
  | jnum n => simp [ancValidate, h]
  | jstr s => simp [ancValidate, h]
  | jarr xs => simp [ancValidate, h]
  | jobj fs => simp [ancValidate, h]

theorem jsTruthy_of_ancValidate_none {v : JVal} (h : ancValidate v = none) :
    jsTruthy v = true := by
  cases v with
  | jnull => simp [ancValidate] at h
  | jbool b => simp [ancValidate, artValid, jGet] at h
  | jnum n => simp [ancValidate, artValid, jGet] at h
  | jstr s => simp [ancValidate, artValid, jGet] at h
  | jarr xs => simp [ancValidate, artValid, jGet] at h
  | jobj fs => rfl

/-- An `ancApiCall` that reports success has written exactly the parsed
value to the cache under the ancillary key (and that value is truthy, so
later `if (cachedData)` tests accept it). -/
theorem ancApiCall_ok_post (st : Settings) (jp : JsonParse) (net : Net)
    (topic key : String) :
    ∀ n c2 evs v s2, ancApiCall st jp net topic key n c2 = (evs, .ok v, s2) →
      cacheGet s2 key = some v ∧ jsTruthy v = true := by
  intro n c2 evs v s2 h
  rw [ancApiCall] at h
  cases hk : st.apiKey with
  | none => simp only [hk] at h; simp at h
  | some _ =>
    simp only [hk] at h
    cases hn : net n with
    | error e => simp only [hn] at h; simp at h
    | ok text =>
      simp only [hn] at h
      cases hp : jp (stripFenceStr text) with
      | error e => simp only [hp] at h; simp at h
      | ok parsed =>
        simp only [hp] at h
        cases hv : ancValidate parsed with
        | some msg => simp only [hv] at h; simp at h
        | none =>
          simp only [hv] at h
          have h1 := congrArg (fun x : List Ev × Except GError JVal × Cache => x.2.1) h
          have h2 := congrArg (fun x : List Ev × Except GError JVal × Cache => x.2.2) h
          simp only at h1 h2
          have hpv : parsed = v := Except.ok.inj h1
          subst hpv
          rw [← h2]
          exact ⟨cacheGet_set_self c2 key parsed, jsTruthy_of_ancValidate_none hv⟩

/-- If every successful invocation of the wrapped operation establishes
`P` of the returned value and the post-state, then a successful run of
the retry loop does too (the loop returns the succeeding invocation's
state unchanged). -/
theorem retryGo_ok_state {α σ : Type} (op : Nat → σ → List Ev × Except GError α × σ)
    (hasR : Bool) (P : α → σ → Prop)
    (hop : ∀ n s evs v s2, op n s = (evs, .ok v, s2) → P v s2) :
    ∀ rem attempt lastE s v,
      (retryGo op hasR attempt rem lastE s).2.1 = .ok v →
      P v (retryGo op hasR attempt rem lastE s).2.2 := by
  intro rem
  induction rem with
  | zero =>
    intro attempt lastE s v h
    simp [retryGo] at h
  | succ rem ih =>
    intro attempt lastE s v h
    rcases hcall : op attempt s with ⟨evs, res, s2⟩
    cases res with
    | ok w =>
      simp only [retryGo, hcall] at h ⊢
      have hwv : w = v := Except.ok.inj h
      subst hwv
      exact hop attempt s evs w s2 hcall
    | error e =>
      simp only [retryGo, hcall] at h ⊢
      by_cases h1 : jsIncludes e.message "API rate limit exceeded" = true
      · by_cases h2 : attempt < MAX_RETRIES - 1
        · simp only [h1, h2, if_true] at h ⊢
          exact ih (attempt + 1) (some e) s2 v h
        · simp [h1, h2] at h
      · simp [h1] at h

/-- Each loop iteration performs at most one network request, so the
retry loop performs at most `rem` of them. -/
theorem retryGo_netCount_le {α σ : Type} (op : Nat → σ → List Ev × Except GError α × σ)
    (hasR : Bool) (hop : ∀ n s, netCount (op n s).1 ≤ 1) :
    ∀ rem attempt lastE s, netCount (retryGo op hasR attempt rem lastE s).1 ≤ rem := by
  intro rem
  induction rem with
  | zero => intro attempt lastE s; simp [retryGo]
  | succ rem ih =>
    intro attempt lastE s
    rcases hcall : op attempt s with ⟨evs, res, s2⟩
    have hev : netCount evs ≤ 1 := by
      have h := hop attempt s
      rw [hcall] at h
      exact h
    cases res with
    | ok w =>
      simp only [retryGo, hcall]
      simp [isNetCall]
      omega
    | error e =>
      simp only [retryGo, hcall]
      by_cases h1 : jsIncludes e.message "API rate limit exceeded" = true
      · by_cases h2 : attempt < MAX_RETRIES - 1
        · cases hasR with
          | true =>
            have ht := ih (attempt + 1) (some e) s2
            simp [h1, h2, isNetCall]
            omega
          | false =>
            have ht := ih (attempt + 1) (some e) s2
            simp [h1, h2, isNetCall]
            omega
        · simp [h1, h2, isNetCall]
          omega
      · simp [h1, isNetCall]
        omega

theorem ancApiCall_netCount_le (st : Settings) (jp : JsonParse) (net : Net)
    (topic key : String) :
    ∀ n c2, netCount (ancApiCall st jp net topic key n c2).1 ≤ 1 := by
  intro n c2
  rw [ancApiCall]
  split
  · simp
  · split
    · simp [isNetCall]
    · split
      · simp [isNetCall]
      · split
        · simp [isNetCall]
        · simp [isNetCall]

/-- Evaluation of `generateAncillaryData` on a cache hit with a truthy
cached value. -/
theorem generateAncillaryData_hit {st : Settings} {jp : JsonParse} {net : Net}
    {topic : String} {hasR : Bool} {c : Cache} {v : JVal}
    (hhit : cacheGet c (ancCacheKey st.modelId topic) = some v)
    (ht : jsTruthy v = true) :
    generateAncillaryData st jp net topic hasR c = ([], .ok v, c) := by
  simp only [generateAncillaryData, hhit, ht]
  simp

/-- Evaluation of `generateDeepDive` on a cache hit with a truthy cached
value. -/
theorem generateDeepDive_hit {st : Settings} {jp : JsonParse} {net : Net}
    {topic : String} {hasR : Bool} {c : Cache} {v : JVal}
    (hhit : cacheGet c (deepDiveCacheKey st.modelId topic) = some v)
    (ht : jsTruthy v = true) :
    generateDeepDive st jp net topic hasR c = ([], .ok v, c) := by
  simp only [generateDeepDive, hhit, ht]
  simp

/-- Evaluation of `generateAncillaryData` when the first attempt yields
a parse that passes the art validation. -/
theorem generateAncillaryData_firstAttempt_ok
    {st : Settings} {jp : JsonParse} {net : Net} {topic k text : String}
    {parsed : JVal} {hasR : Bool} {c : Cache}
    (hkey : st.apiKey = some k)
    (hmiss : cacheGet c (ancCacheKey st.modelId topic) = none)
    (hnet : net 0 = .ok text)
    (hparse : jp (stripFenceStr text) = .ok parsed)
    (hvalid : ancValidate parsed = none) :
    generateAncillaryData st jp net topic hasR c =
      ([Ev.invoke 0, Ev.netCall], .ok parsed,
        cacheSet c (ancCacheKey st.modelId topic) parsed) := by
  have hop : ancApiCall st jp net topic (ancCacheKey st.modelId topic) 0 c =
      ([Ev.netCall], .ok parsed, cacheSet c (ancCacheKey st.modelId topic) parsed) := by
    rw [ancApiCall]
    simp only [hkey, hnet, hparse, hvalid]
  simp only [generateAncillaryData, hmiss]
  rw [geminiRequestWithRetry]
  simp [retryGo, MAX_RETRIES, hop]

/-- Evaluation of `generateAncillaryData` when the first attempt parses
but fails the art validation and the resulting classified message does
not carry the rate-limit phrase: the wrapper does not retry and the call
rejects with the classified descriptive error, leaving the cache
untouched. -/
theorem generateAncillaryData_firstAttempt_invalid
    {st : Settings} {jp : JsonParse} {net : Net} {topic k text msg : String}
    {parsed : JVal} {hasR : Bool} {c : Cache}
    (hkey : st.apiKey = some k)
    (hmiss : cacheGet c (ancCacheKey st.modelId topic) = none)
    (hnet : net 0 = .ok text)
    (hparse : jp (stripFenceStr text) = .ok parsed)
    (hinvalid : ancValidate parsed = some msg)
    (hni : jsIncludes (handleGeminiError (.errObj msg)
        ("generate ancillary data for \"" ++ topic ++ "\"")).message
        "API rate limit exceeded" = false) :
    generateAncillaryData st jp net topic hasR c =
      ([Ev.invoke 0, Ev.netCall],
        .error (handleGeminiError (.errObj msg)
          ("generate ancillary data for \"" ++ topic ++ "\"")), c) := by
  have hop : ancApiCall st jp net topic (ancCacheKey st.modelId topic) 0 c =
      ([Ev.netCall],
        .error (handleGeminiError (.errObj msg)
          ("generate ancillary data for \"" ++ topic ++ "\"")), c) := by
    rw [ancApiCall]
    simp only [hkey, hnet, hparse, hinvalid]
  simp only [generateAncillaryData, hmiss]
  rw [geminiRequestWithRetry]
  simp [retryGo, MAX_RETRIES, hop, hni]

/-- Evaluation of `generateAncillaryData` when no API key is configured
and the cache misses: the bare configuration error (thrown before the
try block, hence unwrapped) is rethrown by the wrapper after a single
invocation, with no network request, no retry notification and no
sleep. -/
theorem generateAncillaryData_noKey
    {st : Settings} {jp : JsonParse} {net : Net} {topic : String}
    {hasR : Bool} {c : Cache}
    (hnone : st.apiKey = none)
    (hmiss : cacheGet c (ancCacheKey st.modelId topic) = none) :
    generateAncillaryData st jp net topic hasR c =
      ([Ev.invoke 0], .error ⟨apiKeyNotConfiguredMessage⟩, c) := by
  have hop : ancApiCall st jp net topic (ancCacheKey st.modelId topic) 0 c =
      ([], .error ⟨apiKeyNotConfiguredMessage⟩, c) := by
    rw [ancApiCall]
    simp only [hnone]
  have hni : jsIncludes apiKeyNotConfiguredMessage "API rate limit exceeded" = false := rfl
  simp only [generateAncillaryData, hmiss]
  rw [geminiRequestWithRetry]
  simp [retryGo, MAX_RETRIES, hop, hni]

/-- Evaluation of `generateDeepDive` when the first attempt parses: the
parsed value is returned and cached verbatim, with no validation. -/
theorem generateDeepDive_firstAttempt_ok
    {st : Settings} {jp : JsonParse} {net : Net} {topic k text : String}
    {parsed : JVal} {hasR : Bool} {c : Cache}
    (hkey : st.apiKey = some k)
    (hmiss : cacheGet c (deepDiveCacheKey st.modelId topic) = none)
    (hnet : net 0 = .ok text)
    (hparse : jp (stripFenceStr text) = .ok parsed) :
    generateDeepDive st jp net topic hasR c =
      ([Ev.invoke 0, Ev.netCall], .ok parsed,
        cacheSet c (deepDiveCacheKey st.modelId topic) parsed) := by
  have hop : ddApiCall st jp net topic (deepDiveCacheKey st.modelId topic) 0 c =
      ([Ev.netCall], .ok parsed, cacheSet c (deepDiveCacheKey st.modelId topic) parsed) := by
    rw [ddApiCall]
    simp only [hkey, hnet, hparse]
  simp only [generateDeepDive, hmiss]
  rw [geminiRequestWithRetry]
  simp [retryGo, MAX_RETRIES, hop]

/-- Evaluation of `generateDeepDive` when the first attempt fails to
parse and the classified message does not carry the rate-limit phrase:
single attempt, rejection with the classified contextual error. -/
theorem generateDeepDive_firstAttempt_parseError
    {st : Settings} {jp : JsonParse} {net : Net} {topic k text : String}
    {e : JSError} {hasR : Bool} {c : Cache}
    (hkey : st.apiKey = some k)
    (hmiss : cacheGet c (deepDiveCacheKey st.modelId topic) = none)
    (hnet : net 0 = .ok text)
    (hparse : jp (stripFenceStr text) = .error e)
    (hni : jsIncludes (handleGeminiError e
        ("generate deep dive for \"" ++ topic ++ "\"")).message
        "API rate limit exceeded" = false) :
    generateDeepDive st jp net topic hasR c =
      ([Ev.invoke 0, Ev.netCall],
        .error (handleGeminiError e ("generate deep dive for \"" ++ topic ++ "\"")), c) := by
  have hop : ddApiCall st jp net topic (deepDiveCacheKey st.modelId topic) 0 c =
      ([Ev.netCall],
        .error (handleGeminiError e ("generate deep dive for \"" ++ topic ++ "\"")), c) := by
    rw [ddApiCall]
    simp only [hkey, hnet, hparse]
  simp only [generateDeepDive, hmiss]
  rw [geminiRequestWithRetry]
  simp [retryGo, MAX_RETRIES, hop, hni]

/-- Evaluation of `generateDeepDive` when no API key is configured and
the cache misses. -/
theorem generateDeepDive_noKey
    {st : Settings} {jp : JsonParse} {net : Net} {topic : String}
    {hasR : Bool} {c : Cache}
    (hnone : st.apiKey = none)
    (hmiss : cacheGet c (deepDiveCacheKey st.modelId topic) = none) :
    generateDeepDive st jp net topic hasR c =
      ([Ev.invoke 0], .error ⟨apiKeyNotConfiguredMessage⟩, c) := by
  have hop : ddApiCall st jp net topic (deepDiveCacheKey st.modelId topic) 0 c =
      ([], .error ⟨apiKeyNotConfiguredMessage⟩, c) := by
    rw [ddApiCall]
    simp only [hnone]
  have hni : jsIncludes apiKeyNotConfiguredMessage "API rate limit exceeded" = false := rfl
  simp only [generateDeepDive, hmiss]
  rw [geminiRequestWithRetry]
  simp [retryGo, MAX_RETRIES, hop, hni]

/-! ## Concrete fixtures used by witnesses and counterexamples -/

/-- A well-formed parsed ancillary payload (non-empty art). -/
def goodVal : JVal :=
  .jobj [("artData", .jobj [("art", .jstr "ART")]), ("concepts", .jarr [.jstr "HTML"])]

/-- A parsed ancillary payload whose art is whitespace-only. -/
def badArtVal : JVal :=
  .jobj [("artData", .jobj [("art", .jstr "   ")])]

/-- Settings with a configured key and model `m1`. -/
def stW : Settings := ⟨some "k", "m1"⟩

/-- Settings with no API key configured. -/
def stNoKey : Settings := ⟨none, "m1"⟩

/-- A parse function recognizing the fixture payload text. -/
def jpW : JsonParse :=
  fun s => if s = "PAYLOAD" then .ok goodVal else .error .other

/-- A backend always returning the fixture payload text. -/
def netW : Net := fun _ => .ok "PAYLOAD"

/-- A backend that is rate-limited on the first request and succeeds on
the second. -/
def netRetry : Net :=
  fun n => if n = 0 then .error (.errObj "rate limit") else .ok "PAYLOAD"

/-- The deep-dive fixture response text (the JSON payload of the spec's
end-to-end scenario). -/
def ddText : String :=
  "\x7b\"summary\":\"[[Entropy]] is disorder.\",\"resources\":[\x7b\"title\":\"X\",\"url\":\"http://x\",\"description\":\"y\"\x7d]\x7d"

/-- The parse of `ddText`. -/
def ddVal : JVal :=
  .jobj [("summary", .jstr "[[Entropy]] is disorder."),
    ("resources", .jarr [.jobj [("title", .jstr "X"), ("url", .jstr "http://x"),
      ("description", .jstr "y")]])]

/-- A parse function recognizing exactly `ddText`. -/
def jpDD : JsonParse :=
  fun s => if s = ddText then .ok ddVal else .error (.errObj "SyntaxError")

/-- A backend returning `ddText`. -/
def netDD : Net := fun _ => .ok ddText

/-! ## Claim C8: cache-key shape -/

/-- C8: the cache key is the deterministic string
`{operationKind}_{modelId}_{lowercased topic}`: for every model the
ancillary keys of `Hypertext` and `HYPERTEXT` coincide (topic folded to
lower case), for every model and topic the ancillary key differs from
the deep-dive key, and the concrete keys have exactly the documented
shape. -/
theorem cache_key_shape :
    (∀ m : String, ancCacheKey m "Hypertext" = ancCacheKey m "HYPERTEXT")
    ∧ (∀ m t : String, ancCacheKey m t ≠ deepDiveCacheKey m t)
    ∧ ancCacheKey "m1" "Hypertext" = "ancillary_m1_hypertext"
    ∧ deepDiveCacheKey "m1" "Hypertext" = "deepdive_m1_hypertext" := by
  refine ⟨?_, ?_, rfl, rfl⟩
  · intro m
    rw [ancCacheKey, ancCacheKey]
    have h : jsToLower "Hypertext" = jsToLower "HYPERTEXT" := rfl
    rw [h]
  · intro m t h
    have h1 := congrArg strHead? h
    have ha : strHead? (ancCacheKey m t) = some 'a' := rfl
    have hd : strHead? (deepDiveCacheKey m t) = some 'd' := rfl
    rw [ha, hd] at h1
    exact absurd h1 (by decide)

/-- C8 (witness): the key laws evaluated at a concrete model and
topic. -/
theorem cache_key_shape_witness :
    ancCacheKey "m1" "Hypertext" = ancCacheKey "m1" "HYPERTEXT"
    ∧ ancCacheKey "m1" "Hypertext" ≠ deepDiveCacheKey "m1" "Hypertext" :=
  ⟨cache_key_shape.1 "m1", cache_key_shape.2.1 "m1" "Hypertext"⟩

/-! ## Claim C10: cache hits need no credential -/

/-- C10: a cache hit requires no credential — whenever the cache holds a
(truthy) entry under the operation's key, `generateAncillaryData` and
`generateDeepDive` resolve with the cached value even when no API key is
configured, without invoking the operation or the network; and with no
cached entry and no API key both operations reject after a single
invocation (no retry, no network request) with the configuration error,
whose message contains `API Key is not configured`. -/
theorem cache_hit_requires_no_credential
    (st : Settings) (jp jp2 : JsonParse) (net net2 : Net) (topic : String)
    (c : Cache) (hasR : Bool) (v w : JVal) :
    (cacheGet c (ancCacheKey st.modelId topic) = some v → jsTruthy v = true →
      generateAncillaryData st jp net topic hasR c = ([], .ok v, c))
    ∧ (cacheGet c (deepDiveCacheKey st.modelId topic) = some w → jsTruthy w = true →
      generateDeepDive st jp2 net2 topic hasR c = ([], .ok w, c))
    ∧ (st.apiKey = none → cacheGet c (ancCacheKey st.modelId topic) = none →
      generateAncillaryData st jp net topic hasR c =
        ([Ev.invoke 0], .error ⟨apiKeyNotConfiguredMessage⟩, c)
      ∧ jsIncludes apiKeyNotConfiguredMessage "API Key is not configured" = true)
    ∧ (st.apiKey = none → cacheGet c (deepDiveCacheKey st.modelId topic) = none →
      generateDeepDive st jp2 net2 topic hasR c =
        ([Ev.invoke 0], .error ⟨apiKeyNotConfiguredMessage⟩, c)) :=
  ⟨fun hhit ht => generateAncillaryData_hit hhit ht,
   fun hhit ht => generateDeepDive_hit hhit ht,
   fun hnone hmiss => ⟨generateAncillaryData_noKey hnone hmiss, rfl⟩,
   fun hnone hmiss => generateDeepDive_noKey hnone hmiss⟩

/-- C10 (witness): concrete cache hits with no key configured, and the
concrete no-key, no-cache rejections. -/
theorem cache_hit_requires_no_credential_witness :
    generateAncillaryData stNoKey jpW netW "Hypertext" true
        [("ancillary_m1_hypertext", goodVal), ("deepdive_m1_hypertext", ddVal)] =
      ([], .ok goodVal, [("ancillary_m1_hypertext", goodVal), ("deepdive_m1_hypertext", ddVal)])
    ∧ generateDeepDive stNoKey jpDD netDD "Hypertext" true
        [("ancillary_m1_hypertext", goodVal), ("deepdive_m1_hypertext", ddVal)] =
      ([], .ok ddVal, [("ancillary_m1_hypertext", goodVal), ("deepdive_m1_hypertext", ddVal)])
    ∧ generateAncillaryData stNoKey jpW netW "Hypertext" true [] =
      ([Ev.invoke 0], .error ⟨apiKeyNotConfiguredMessage⟩, [])
    ∧ generateDeepDive stNoKey jpDD netDD "Hypertext" true [] =
      ([Ev.invoke 0], .error ⟨apiKeyNotConfiguredMessage⟩, []) :=
  ⟨(cache_hit_requires_no_credential stNoKey jpW jpW netW netW "Hypertext"
      [("ancillary_m1_hypertext", goodVal), ("deepdive_m1_hypertext", ddVal)] true goodVal ddVal).1
      rfl rfl,
   (cache_hit_requires_no_credential stNoKey jpW jpDD netW netDD "Hypertext"
      [("ancillary_m1_hypertext", goodVal), ("deepdive_m1_hypertext", ddVal)] true goodVal ddVal).2.1
      rfl rfl,
   ((cache_hit_requires_no_credential stNoKey jpW jpW netW netW "Hypertext" [] true goodVal ddVal).2.2.1
      rfl rfl).1,
   (cache_hit_requires_no_credential stNoKey jpW jpDD netW netDD "Hypertext" [] true goodVal ddVal).2.2.2
      rfl rfl⟩

/-! ## Claim C9: deep-dive pass-through -/

/-- C9: for every backend text whose fence-stripped form parses,
`generateDeepDive` performs no shape validation and resolves with
exactly the parsed value unmodified (also writing it through to the
cache); text that fails to parse surfaces as an error classified with
the context `generate deep dive for "{topic}"` (shown here for parse
errors whose classified message does not carry the rate-limit phrase,
the condition under which the wrapper rethrows at once). -/
theorem deepDive_parse_passthrough
    (st : Settings) (jp : JsonParse) (net : Net) (topic k text : String)
    (c : Cache) (hasR : Bool)
    (hkey : st.apiKey = some k)
    (hmiss : cacheGet c (deepDiveCacheKey st.modelId topic) = none)
    (hnet : net 0 = .ok text) :
    (∀ v, jp (stripFenceStr text) = .ok v →
      generateDeepDive st jp net topic hasR c =
        ([Ev.invoke 0, Ev.netCall], .ok v,
          cacheSet c (deepDiveCacheKey st.modelId topic) v))
    ∧ (∀ e, jp (stripFenceStr text) = .error e →
        jsIncludes (handleGeminiError e
            ("generate deep dive for \"" ++ topic ++ "\"")).message
          "API rate limit exceeded" = false →
        generateDeepDive st jp net topic hasR c =
          ([Ev.invoke 0, Ev.netCall],
            .error (handleGeminiError e ("generate deep dive for \"" ++ topic ++ "\"")),
            c)) :=
  ⟨fun _v hp => generateDeepDive_firstAttempt_ok hkey hmiss hnet hp,
   fun _e hp hni => generateDeepDive_firstAttempt_parseError hkey hmiss hnet hp hni⟩

/-- C9 (witness): the spec's end-to-end scenario — the Entropy payload
parses to a value whose summary retains the `[[Entropy]]` marker and
whose resources list has length 1, and an unparseable response yields
the contextual error. -/
theorem deepDive_parse_passthrough_witness :
    generateDeepDive stW jpDD netDD "Entropy" true [] =
      ([Ev.invoke 0, Ev.netCall], .ok ddVal, [("deepdive_m1_entropy", ddVal)])
    ∧ jGet ddVal "summary" = some (.jstr "[[Entropy]] is disorder.")
    ∧ jsIncludes "[[Entropy]] is disorder." "[[Entropy]]" = true
    ∧ (match jGet ddVal "resources" with
        | some (.jarr rs) => rs.length
        | _ => 0) = 1
    ∧ generateDeepDive stW (fun _ => .error (.errObj "Unexpected token")) netDD "Entropy" true [] =
      ([Ev.invoke 0, Ev.netCall],
        .error ⟨"Could not generate deep dive for \"Entropy\". Unexpected token"⟩, []) := by
  refine ⟨?_, rfl, rfl, rfl, ?_⟩
  · exact (deepDive_parse_passthrough stW jpDD netDD "Entropy" "k" ddText [] true
      rfl rfl rfl).1 ddVal rfl
  · exact (deepDive_parse_passthrough stW (fun _ => .error (.errObj "Unexpected token"))
      netDD "Entropy" "k" ddText [] true rfl rfl rfl).2 (.errObj "Unexpected token") rfl rfl

/-! ## Claim C5: fence stripping and the single hard validation -/

/-- A parse function used by the C5 witness (any deterministic function
works: the round-trip statement only needs the stripped text to equal
the inner text). -/
def pW : JsonParse := fun s => .ok (.jstr s)

/-- C5: `generateAncillaryData` parses the backend text after stripping
one optional leading/trailing triple-backtick fence (optionally tagged
`json`), so a response wrapped as three backticks + `json` + newline +
inner + newline + three backticks parses to the same value as the inner
text directly (for any non-empty inner text not starting or ending in
whitespace, as a trimmed JSON payload is); after parsing, the call
fails with the descriptive art error exactly when `artData.art` is not
a string or is empty after trimming, and every parse passing that one
check succeeds — no other shape deviation is a hard failure. -/
theorem ancillary_fence_and_art_validation
    (p jp : JsonParse) (inner : String) (st : Settings) (net : Net)
    (topic k text : String) (v : JVal) (hasR : Bool) (c : Cache) :
    (inner.data ≠ [] →
     (∀ c0, inner.data.head? = some c0 → isWsChar c0 = false) →
     (∀ c0, inner.data.getLast? = some c0 → isWsChar c0 = false) →
      p (stripFenceStr ("```json\n" ++ inner ++ "\n```")) = p inner)
    ∧ (st.apiKey = some k →
       cacheGet c (ancCacheKey st.modelId topic) = none →
       net 0 = .ok text →
       jp (stripFenceStr text) = .ok v →
       ((artValid v = true →
          generateAncillaryData st jp net topic hasR c =
            ([Ev.invoke 0, Ev.netCall], .ok v,
              cacheSet c (ancCacheKey st.modelId topic) v))
        ∧ (artValid v = false → v ≠ JVal.jnull →
           jsIncludes (handleGeminiError (.errObj "Invalid or empty ASCII art in response")
               ("generate ancillary data for \"" ++ topic ++ "\"")).message
             "API rate limit exceeded" = false →
           generateAncillaryData st jp net topic hasR c =
             ([Ev.invoke 0, Ev.netCall],
               .error (handleGeminiError (.errObj "Invalid or empty ASCII art in response")
                 ("generate ancillary data for \"" ++ topic ++ "\"")), c)))) := by
  constructor
  · intro hne hh hl
    have hs : stripFenceStr ("```json\n" ++ inner ++ "\n```") = inner := by
      rw [stripFenceStr]
      have hdata : ("```json\n" ++ inner ++ "\n```").data =
          "```json\n".data ++ inner.data ++ "\n```".data := rfl
      rw [hdata, stripFence_roundtrip inner.data hne hh hl]
    rw [hs]
  · intro hkey hmiss hnet hparse
    constructor
    · intro hvalid
      exact generateAncillaryData_firstAttempt_ok hkey hmiss hnet hparse
        (ancValidate_eq_none_of_artValid hvalid)
    · intro hinvalid hnn hni
      exact generateAncillaryData_firstAttempt_invalid hkey hmiss hnet hparse
        (ancValidate_eq_some_of_invalid hinvalid hnn) hni

/-- C5 (witness): the round-trip evaluated on a concrete fenced payload,
a concrete accepted parse (hotspot-free, so shape deviations are indeed
tolerated), and a concrete rejected parse with whitespace-only art. -/
theorem ancillary_fence_and_art_validation_witness :
    pW (stripFenceStr ("```json\n" ++ "\x7b\"art\":\"ok\"\x7d" ++ "\n```")) =
      pW "\x7b\"art\":\"ok\"\x7d"
    ∧ generateAncillaryData stW jpW netW "Hypertext" true [] =
        ([Ev.invoke 0, Ev.netCall], .ok goodVal, [("ancillary_m1_hypertext", goodVal)])
    ∧ generateAncillaryData stW (fun _ => .ok badArtVal) netW "Hypertext" true [] =
        ([Ev.invoke 0, Ev.netCall],
          .error ⟨"Could not generate ancillary data for \"Hypertext\". Invalid or empty ASCII art in response"⟩,
          []) := by
  refine ⟨?_, ?_, ?_⟩
  · exact (ancillary_fence_and_art_validation pW jpW "\x7b\"art\":\"ok\"\x7d" stW netW
      "Hypertext" "k" "PAYLOAD" goodVal true []).1
      (by decide)
      (fun c0 h0 => by injection h0 with h; rw [← h]; rfl)
      (fun c0 h0 => by injection h0 with h; rw [← h]; rfl)
  · exact ((ancillary_fence_and_art_validation pW jpW "x" stW netW
      "Hypertext" "k" "PAYLOAD" goodVal true []).2 rfl rfl rfl rfl).1 rfl
  · exact ((ancillary_fence_and_art_validation pW (fun _ => .ok badArtVal) "x" stW netW
      "Hypertext" "k" "PAYLOAD" badArtVal true []).2 rfl rfl rfl rfl).2 rfl
      (fun h => JVal.noConfusion h) rfl

/-! ## Claim C4: second call is a pure cache hit -/

/-- A successful `generateAncillaryData` call leaves the returned value
(truthy) in the final cache under the ancillary key — whether it was
already cached or just written through. -/
theorem generateAncillaryData_ok_cached
    (st : Settings) (jp : JsonParse) (net : Net) (topic : String)
    (hasR : Bool) (c : Cache) :
    ∀ v, (generateAncillaryData st jp net topic hasR c).2.1 = .ok v →
      cacheGet (generateAncillaryData st jp net topic hasR c).2.2
          (ancCacheKey st.modelId topic) = some v
      ∧ jsTruthy v = true := by
  intro v hok
  cases hc : cacheGet c (ancCacheKey st.modelId topic) with
  | some w =>
    by_cases ht : jsTruthy w = true
    · have h1 : generateAncillaryData st jp net topic hasR c = ([], .ok w, c) :=
        generateAncillaryData_hit hc ht
      rw [h1] at hok ⊢
      have hwv : w = v := Except.ok.inj hok
      subst hwv
      exact ⟨hc, ht⟩
    · have heq : generateAncillaryData st jp net topic hasR c =
          geminiRequestWithRetry
            (ancApiCall st jp net topic (ancCacheKey st.modelId topic)) hasR c := by
        simp only [generateAncillaryData, hc]
        rw [if_neg ht]
      rw [heq] at hok ⊢
      rw [geminiRequestWithRetry] at hok ⊢
      exact retryGo_ok_state _ hasR
        (fun v2 s2 => cacheGet s2 (ancCacheKey st.modelId topic) = some v2 ∧ jsTruthy v2 = true)
        (ancApiCall_ok_post st jp net topic _) MAX_RETRIES 0 none c v hok
  | none =>
    have heq : generateAncillaryData st jp net topic hasR c =
        geminiRequestWithRetry
          (ancApiCall st jp net topic (ancCacheKey st.modelId topic)) hasR c := by
      simp only [generateAncillaryData, hc]
    rw [heq] at hok ⊢
    rw [geminiRequestWithRetry] at hok ⊢
    exact retryGo_ok_state _ hasR
      (fun v2 s2 => cacheGet s2 (ancCacheKey st.modelId topic) = some v2 ∧ jsTruthy v2 = true)
      (ancApiCall_ok_post st jp net topic _) MAX_RETRIES 0 none c v hok

/-- One `generateAncillaryData` call issues at most `MAX_RETRIES`
network requests. -/
theorem generateAncillaryData_netCount_le
    (st : Settings) (jp : JsonParse) (net : Net) (topic : String)
    (hasR : Bool) (c : Cache) :
    netCount (generateAncillaryData st jp net topic hasR c).1 ≤ MAX_RETRIES := by
  cases hc : cacheGet c (ancCacheKey st.modelId topic) with
  | some w =>
    by_cases ht : jsTruthy w = true
    · rw [generateAncillaryData_hit hc ht]
      simp [MAX_RETRIES]
    · have heq : generateAncillaryData st jp net topic hasR c =
          geminiRequestWithRetry
            (ancApiCall st jp net topic (ancCacheKey st.modelId topic)) hasR c := by
        simp only [generateAncillaryData, hc]
        rw [if_neg ht]
      rw [heq, geminiRequestWithRetry]
      exact retryGo_netCount_le _ hasR
        (ancApiCall_netCount_le st jp net topic _) MAX_RETRIES 0 none c
  | none =>
    have heq : generateAncillaryData st jp net topic hasR c =
        geminiRequestWithRetry
          (ancApiCall st jp net topic (ancCacheKey st.modelId topic)) hasR c := by
      simp only [generateAncillaryData, hc]
    rw [heq, geminiRequestWithRetry]
    exact retryGo_netCount_le _ hasR
      (ancApiCall_netCount_le st jp net topic _) MAX_RETRIES 0 none c

/-- C4 (counterexample): a first call that is rate-limited once and then
succeeds issues 2 network requests; the second call is a pure cache hit
issuing 0 — so across the two calls 2 requests are issued, refuting "at
most one network request across the two calls". -/
theorem ancillary_retry_then_success_two_requests_cex :
    (generateAncillaryData stW jpW netRetry "Hypertext" true []).2.1 = .ok goodVal
    ∧ netCount (generateAncillaryData stW jpW netRetry "Hypertext" true []).1 = 2
    ∧ netCount (generateAncillaryData stW jpW netRetry "Hypertext" true
        (generateAncillaryData stW jpW netRetry "Hypertext" true []).2.2).1 = 0 :=
  ⟨rfl, rfl, rfl⟩

/-- C4 (amended): if a first `generateAncillaryData` call succeeds, a
second call with the same model and topic and no intervening cache-clear
is a pure cache hit — it returns the first call's value with an empty
trace (no operation invocation, no retry wrapper activity, no network
request) and leaves the cache unchanged; hence across the two calls only
the first call's network requests are issued — at most `MAX_RETRIES`
(3), and exactly one when the first attempt succeeds (rather than "at
most one" in every successful case: a rate-limited first attempt
followed by a successful retry already issues two). -/
theorem ancillary_second_call_cache_hit
    (st : Settings) (jp jp2 : JsonParse) (net net2 : Net) (topic : String)
    (hasR hasR2 : Bool) (c : Cache) :
    (∀ v, (generateAncillaryData st jp net topic hasR c).2.1 = .ok v →
      generateAncillaryData st jp2 net2 topic hasR2
          (generateAncillaryData st jp net topic hasR c).2.2 =
        ([], .ok v, (generateAncillaryData st jp net topic hasR c).2.2))
    ∧ netCount (generateAncillaryData st jp net topic hasR c).1 ≤ MAX_RETRIES
    ∧ (∀ k text parsed, st.apiKey = some k →
        cacheGet c (ancCacheKey st.modelId topic) = none →
        net 0 = .ok text → jp (stripFenceStr text) = .ok parsed →
        ancValidate parsed = none →
        netCount (generateAncillaryData st jp net topic hasR c).1 = 1) := by
  refine ⟨?_, generateAncillaryData_netCount_le st jp net topic hasR c, ?_⟩
  · intro v hok
    obtain ⟨hcache, htr⟩ := generateAncillaryData_ok_cached st jp net topic hasR c v hok
    exact generateAncillaryData_hit hcache htr
  · intro k text parsed hkey hmiss hnet hparse hvalid
    rw [generateAncillaryData_firstAttempt_ok hkey hmiss hnet hparse hvalid]
    rfl

/-- C4 (witness): the amended theorem evaluated on the concrete
fixture — the second call returns the cached value with an empty trace,
and a clean first call issues exactly one request. -/
theorem ancillary_second_call_cache_hit_witness :
    generateAncillaryData stW jpW netW "Hypertext" true
        (generateAncillaryData stW jpW netW "Hypertext" true []).2.2 =
      ([], .ok goodVal, (generateAncillaryData stW jpW netW "Hypertext" true []).2.2)
    ∧ netCount (generateAncillaryData stW jpW netW "Hypertext" true []).1 = 1 :=
  ⟨(ancillary_second_call_cache_hit stW jpW jpW netW netW "Hypertext" true true []).1
      goodVal rfl,
   (ancillary_second_call_cache_hit stW jpW jpW netW netW "Hypertext" true true []).2.2
      "k" "PAYLOAD" goodVal rfl rfl rfl rfl rfl⟩

/-! ## Claims C6, C7: the streaming operation -/

theorem streamGo_success (streams : Nat → StreamResp) (topic : String)
    (attempt rem : Nat) (yields : List String)
    (h : attemptView (streams attempt) = (yields, none)) :
    streamGo streams topic attempt (rem + 1) = (yields, none) := by
  simp only [streamGo, h]

theorem streamGo_step_marked (streams : Nat → StreamResp) (topic : String)
    (attempt rem : Nat) (yields : List String) (e : JSError)
    (h : attemptView (streams attempt) = (yields, some e))
    (hm : rateLimitMarked (errMessage e) = true)
    (hlt : attempt < MAX_RETRIES - 1) :
    streamGo streams topic attempt (rem + 1) =
      (yields ++ sentinelMsg (INITIAL_BACKOFF_MS * 2 ^ attempt) ::
        (streamGo streams topic (attempt + 1) rem).1,
        (streamGo streams topic (attempt + 1) rem).2) := by
  simp only [streamGo, h]
  rw [handleGeminiError_marked hm]
  have hinc : jsIncludes rateLimitUserMessage "API rate limit exceeded" = true := rfl
  simp [hinc, hlt]

theorem streamGo_last_marked (streams : Nat → StreamResp) (topic : String)
    (attempt rem : Nat) (yields : List String) (e : JSError)
    (h : attemptView (streams attempt) = (yields, some e))
    (hm : rateLimitMarked (errMessage e) = true)
    (hge : ¬ attempt < MAX_RETRIES - 1) :
    streamGo streams topic attempt (rem + 1) = (yields, some ⟨rateLimitUserMessage⟩) := by
  simp only [streamGo, h]
  rw [handleGeminiError_marked hm]
  have hinc : jsIncludes rateLimitUserMessage "API rate limit exceeded" = true := rfl
  simp [hinc, hge]

theorem streamGo_no_phrase (streams : Nat → StreamResp) (topic : String)
    (attempt rem : Nat) (yields : List String) (e : JSError)
    (h : attemptView (streams attempt) = (yields, some e))
    (hni : jsIncludes (handleGeminiError e
        ("generate content for \"" ++ topic ++ "\"")).message
        "API rate limit exceeded" = false) :
    streamGo streams topic attempt (rem + 1) =
      (yields, some (handleGeminiError e ("generate content for \"" ++ topic ++ "\""))) := by
  simp only [streamGo, h]
  simp [hni]

/-- C7: for every backend stream that completes without error,
`streamDefinition` yields exactly the truthy (non-empty, present) text
fragments of the backend response, in arrival order, with no
reordering, coalescing or modification, and then finishes without
raising. -/
theorem streamDefinition_success_chunks
    (st : Settings) (streams : Nat → StreamResp) (topic k : String)
    (chunks : List (Option String))
    (hkey : st.apiKey = some k)
    (h0 : streams 0 = .ok (chunks, none)) :
    streamDefinition st streams topic = (chunkTexts chunks, none) := by
  simp only [streamDefinition, hkey]
  have hv : attemptView (streams 0) = (chunkTexts chunks, none) := by
    rw [h0]
    rfl
  rw [show MAX_RETRIES = 2 + 1 from rfl]
  exact streamGo_success streams topic 0 2 (chunkTexts chunks) hv

/-- C7 (witness): the spec's streaming scenario — the consumer observes
exactly the three chunks in order and their concatenation is the full
sentence. -/
theorem streamDefinition_success_chunks_witness :
    streamDefinition stW (fun _ => .ok ([some "Hyper", some "text is ", some "a medium."], none))
        "Hypertext" =
      (["Hyper", "text is ", "a medium."], none)
    ∧ String.join ["Hyper", "text is ", "a medium."] = "Hypertext is a medium." :=
  ⟨streamDefinition_success_chunks stW
      (fun _ => .ok ([some "Hyper", some "text is ", some "a medium."], none))
      "Hypertext" "k" [some "Hyper", some "text is ", some "a medium."] rfl rfl,
   rfl⟩

/-- C6 (counterexample): with the topic string
`API rate limit exceeded`, an error that is NOT classified as
rate-limited (message `boom`, no markers) still triggers the sentinel
and retries, because the classified message embeds the topic inside the
context and therefore contains the retry phrase: the generator yields
two sentinel chunks instead of raising immediately.  This refutes the
claim that a non-rate-limited error always raises without yielding
anything further. -/
theorem streamDefinition_fatal_topic_retry_cex :
    rateLimitMarked "boom" = false
    ∧ streamDefinition stW (fun _ => .error (.errObj "boom")) "API rate limit exceeded" =
      ([sentinelMsg 2000, sentinelMsg 4000],
        some ⟨"Could not generate content for \"API rate limit exceeded\". boom"⟩) :=
  ⟨rfl, rfl⟩

/-- C6 (amended): in `streamDefinition`, when an attempt fails after
yielding `yields` with an error whose classified message carries the
phrase `API rate limit exceeded` — in particular every error classified
as rate-limited — and retry attempts remain, the generator yields
exactly one `[SYSTEM:RETRY]`-prefixed sentinel chunk before the backoff
sleep and then starts a new attempt whose chunks are yielded normally;
when the classified message does not carry the phrase (a fatal error
whose context/topic does not spuriously embed it), the generator raises
the normalized error instead of yielding anything further; and when all
three attempts fail rate-limited, the generator yields each attempt's
chunks with one sentinel between consecutive attempts and finally
raises the normalized rate-limit error. -/
theorem streamDefinition_retry_sentinel_and_raise
    (st : Settings) (streams : Nat → StreamResp) (topic k : String)
    (hkey : st.apiKey = some k) :
    (∀ yields e, attemptView (streams 0) = (yields, some e) →
       rateLimitMarked (errMessage e) = true →
       streamDefinition st streams topic =
         (yields ++ sentinelMsg 2000 :: (streamGo streams topic 1 2).1,
           (streamGo streams topic 1 2).2))
    ∧ (∀ yields e, attemptView (streams 0) = (yields, some e) →
        jsIncludes (handleGeminiError e
            ("generate content for \"" ++ topic ++ "\"")).message
          "API rate limit exceeded" = false →
        streamDefinition st streams topic =
          (yields, some (handleGeminiError e ("generate content for \"" ++ topic ++ "\"")))
        )
    ∧ (∀ (yf : Nat → List String) (ef : Nat → JSError),
        (∀ i : Nat, attemptView (streams i) = (yf i, some (ef i))) →
        (∀ i : Nat, rateLimitMarked (errMessage (ef i)) = true) →
        streamDefinition st streams topic =
          (yf 0 ++ sentinelMsg 2000 :: (yf 1 ++ sentinelMsg 4000 :: yf 2),
            some ⟨rateLimitUserMessage⟩)) := by
  refine ⟨?_, ?_, ?_⟩
  · intro yields e h hm
    simp only [streamDefinition, hkey]
    rw [show MAX_RETRIES = 2 + 1 from rfl]
    have hstep := streamGo_step_marked streams topic 0 2 yields e h hm (by decide)
    simpa [INITIAL_BACKOFF_MS] using hstep
  · intro yields e h hni
    simp only [streamDefinition, hkey]
    rw [show MAX_RETRIES = 2 + 1 from rfl]
    exact streamGo_no_phrase streams topic 0 2 yields e h hni
  · intro yf ef hall hm
    simp only [streamDefinition, hkey]
    have s0 : streamGo streams topic 0 3 =
        (yf 0 ++ sentinelMsg 2000 :: (streamGo streams topic 1 2).1,
          (streamGo streams topic 1 2).2) := by
      simpa [INITIAL_BACKOFF_MS] using
        streamGo_step_marked streams topic 0 2 (yf 0) (ef 0) (hall 0) (hm 0) (by decide)
    have s1 : streamGo streams topic 1 2 =
        (yf 1 ++ sentinelMsg 4000 :: (streamGo streams topic 2 1).1,
          (streamGo streams topic 2 1).2) := by
      simpa [INITIAL_BACKOFF_MS] using
        streamGo_step_marked streams topic 1 1 (yf 1) (ef 1) (hall 1) (hm 1) (by decide)
    have s2 : streamGo streams topic 2 1 = (yf 2, some ⟨rateLimitUserMessage⟩) := by
      simpa using
        streamGo_last_marked streams topic 2 0 (yf 2) (ef 2) (hall 2) (hm 2) (by decide)
    rw [show MAX_RETRIES = 3 from rfl, s0, s1, s2]

/-- Backend fixture whose every attempt yields one chunk and then a
rate-limited error. -/
def streamsRL : Nat → StreamResp :=
  fun _ => .ok ([some "x"], some (.errObj "rate limit"))

/-- Backend fixture whose every attempt throws a fatal error. -/
def streamsFatal : Nat → StreamResp := fun _ => .error (.errObj "bad")

/-- C6 (witness): the amended theorem evaluated at a concrete
always-rate-limited backend (exhaustion trace) and at a concrete fatal
backend (immediate raise). -/
theorem streamDefinition_retry_sentinel_and_raise_witness :
    streamDefinition stW streamsRL "Hypertext" =
      (["x"] ++ sentinelMsg 2000 :: (["x"] ++ sentinelMsg 4000 :: ["x"]),
        some ⟨rateLimitUserMessage⟩)
    ∧ streamDefinition stW streamsFatal "Hypertext" =
      ([], some ⟨"Could not generate content for \"Hypertext\". bad"⟩) :=
  ⟨(streamDefinition_retry_sentinel_and_raise stW streamsRL "Hypertext" "k" rfl).2.2
      (fun _ => ["x"]) (fun _ => .errObj "rate limit") (fun _ => rfl) (fun _ => rfl),
   (streamDefinition_retry_sentinel_and_raise stW streamsFatal "Hypertext" "k" rfl).2.1
      [] (.errObj "bad") rfl rfl⟩
